import Mathlib

/-
Verification development for the touch-event recording/parsing/scaling engine
and the UI selector engine of the Gaze repository.

The Go source computes timestamps and coordinate scaling in float64.  All the
float64 values that occur here are produced by parsing short decimal literals
and by a handful of multiplications/divisions on small integers, so the
development models float64 arithmetic by exact rational arithmetic.  To keep
every definition executable by the kernel, rationals are represented by the
unreduced fraction type `Frac` below (numerator/denominator, no gcd
normalisation), with Go's float-to-int conversion (truncation toward zero)
modelled by `Frac.trunc`.
-/

/-- Exact rational value `num / den`, used to model Go float64 arithmetic.
All fractions built by the definitions below keep `den` positive. -/
structure Frac where
  num : ℤ
  den : ℤ
deriving DecidableEq

/-- Embeds an integer as a fraction. -/
def Frac.ofInt (n : ℤ) : Frac := ⟨n, 1⟩

/-- Exact subtraction of fractions. -/
def Frac.sub (a b : Frac) : Frac := ⟨a.num * b.den - b.num * a.den, a.den * b.den⟩

/-- Exact addition of fractions. -/
def Frac.add (a b : Frac) : Frac := ⟨a.num * b.den + b.num * a.den, a.den * b.den⟩

/-- Exact multiplication of fractions. -/
def Frac.mul (a b : Frac) : Frac := ⟨a.num * b.num, a.den * b.den⟩

/-- Exact division of fractions (only ever applied with a nonzero divisor in
the definitions below, mirroring the source's division guards). -/
def Frac.div (a b : Frac) : Frac := ⟨a.num * b.den, a.den * b.num⟩

/-- Go's `int(v)` conversion on a float: truncation toward zero.
Valid for any representation with nonzero denominator. -/
def Frac.trunc (f : Frac) : ℤ :=
  (f.num * f.den).sign * ((f.num.natAbs / f.den.natAbs : ℕ) : ℤ)

/-- `f < 0` on the modelled float (source: `firstTimestamp < 0`). -/
def Frac.isNeg (f : Frac) : Bool := decide (f.num * f.den < 0)

/-- The rational value represented by a fraction. -/
def Frac.val (f : Frac) : ℚ := (f.num : ℚ) / (f.den : ℚ)

/-- Value of a decimal digit character, if it is one. -/
def decDigit? (c : Char) : Option ℕ :=
  if '0' ≤ c ∧ c ≤ '9' then some (c.toNat - '0'.toNat) else none

/-- Value of a hexadecimal digit character, if it is one. -/
def hexDigit? (c : Char) : Option ℕ :=
  if '0' ≤ c ∧ c ≤ '9' then some (c.toNat - '0'.toNat)
  else if 'a' ≤ c ∧ c ≤ 'f' then some (c.toNat - 'a'.toNat + 10)
  else if 'A' ≤ c ∧ c ≤ 'F' then some (c.toNat - 'A'.toNat + 10)
  else none

/-- Accumulating decimal parse of a digit list; fails on a non-digit. -/
def decNatAux : List Char → ℕ → Option ℕ
  | [], acc => some acc
  | c :: cs, acc =>
    match decDigit? c with
    | none => none
    | some d => decNatAux cs (acc * 10 + d)

/-- Decimal parse of a nonempty digit list. -/
def decNat (l : List Char) : Option ℕ :=
  if l.isEmpty then none else decNatAux l 0

/-- Accumulating hexadecimal parse of a digit list; fails on a non-digit. -/
def hexNatAux : List Char → ℕ → Option ℕ
  | [], acc => some acc
  | c :: cs, acc =>
    match hexDigit? c with
    | none => none
    | some d => hexNatAux cs (acc * 16 + d)

/-- Go `strconv.ParseUint(s, 16, 32)`: parse a hexadecimal string, failing on
the empty string, on a non-hex character, or on a value that does not fit in
32 bits. -/
def parseHex32 (s : String) : Option ℕ :=
  if s.data.isEmpty then none
  else
    match hexNatAux s.data 0 with
    | none => none
    | some n => if n < 2 ^ 32 then some n else none

/-- Go `int32(u)` reinterpretation of an unsigned 32-bit value
(source comment: handles `-1` = `0xffffffff` correctly). -/
def toInt32 (u : ℕ) : ℤ :=
  if u < 2 ^ 31 then (u : ℤ) else (u : ℤ) - 2 ^ 32

/-- Go `strconv.Atoi` with the error discarded (the source ignores it), so a
malformed string yields `0`.  Optional sign followed by a nonempty digit
string; the mathematical value is returned (the Go `int` is 64-bit and the
inputs here are screen dimensions, so overflow is not modelled). -/
def goAtoi (s : String) : ℤ :=
  match s.data with
  | '-' :: rest => (match decNat rest with | some n => -(n : ℤ) | none => 0)
  | '+' :: rest => (match decNat rest with | some n => (n : ℤ) | none => 0)
  | l => (match decNat l with | some n => (n : ℤ) | none => 0)

/-- Go `strings.Split(s, sep)` for a one-character separator (the source only
splits on `"x"`), on an explicit character list. -/
def goSplitAux (sep : Char) : List Char → List Char → List String
  | [], acc => [String.mk acc.reverse]
  | c :: cs, acc =>
    if c = sep then String.mk acc.reverse :: goSplitAux sep cs []
    else goSplitAux sep cs (c :: acc)

/-- Go `strings.Split(s, sep)` for a one-character separator. -/
def goSplit (sep : Char) (s : String) : List String := goSplitAux sep s.data []

/-- One structured touch event of a `TouchScript` (Go struct `TouchEvent`;
unset fields keep Go's zero values). -/
structure TouchEvent where
  timestamp : ℤ
  type : String
  x : ℤ
  y : ℤ
  x2 : ℤ
  y2 : ℤ
  duration : ℤ
deriving DecidableEq

/-- A parsed gesture script (Go struct `TouchScript`). -/
structure TouchScript where
  deviceID : String
  name : String
  resolution : String
  createdAt : String
  events : List TouchEvent
deriving DecidableEq

/-- The payload the recording regex extracts from one raw `getevent` line:
the decimal timestamp in seconds (exact value of the literal, `0` if
`ParseFloat` fails), the event type word (`EV_...`), the event code word and
the value field (hex digits, `DOWN` or `UP`). -/
structure ParsedLine where
  timestamp : Frac
  evType : String
  evCode : String
  evValue : String
deriving DecidableEq

/-- A recording session (Go struct `TouchRecordingSession`).  A raw line is
kept abstractly as the result of matching the source's line regex against it:
`none` for a line the regex rejects (fewer than 5 submatches), `some` with
the extracted fields otherwise.  `createdAt` is the RFC3339-formatted start
time, kept opaque. -/
structure TouchRecordingSession where
  deviceID : String
  createdAt : String
  rawEvents : List (Option ParsedLine)
  resolution : String
  inputDevice : String
  maxX : ℤ
  maxY : ℤ
  minX : ℤ
  minY : ℤ
deriving DecidableEq

/-- Source: `if maxX == minX { maxX = screenW; minX = 0 }` — the degenerate
axis-range fallback applied by `parseRawEvents` before scaling, returning the
effective `(min, max)` pair. -/
def effectiveRange (lo hi dim : ℤ) : ℤ × ℤ :=
  if hi = lo then (0, dim) else (lo, hi)

/-- Source: parse `"WxH"` into screen dimensions, keeping the defaults
`1080`/`1920` unless the split yields exactly two parts (`Atoi` errors are
discarded, as in the source). -/
def parseResolution (res : String) : ℤ × ℤ :=
  match goSplit 'x' res with
  | [w, h] => (goAtoi w, goAtoi h)
  | _ => (1080, 1920)

/-- Source scaling block: `round(float64(raw-min) * float64(dim) / width)`
with `round(v) = int(v + 0.5)` when the range is non-degenerate, and the raw
coordinate passed through unscaled otherwise. -/
def scaleAxis (raw lo hi dim : ℤ) : ℤ :=
  if hi > lo then
    Frac.trunc (Frac.add
      (Frac.div (Frac.mul (Frac.ofInt (raw - lo)) (Frac.ofInt dim)) (Frac.ofInt (hi - lo)))
      ⟨1, 2⟩)
  else raw

/-- The effective coordinate ranges and screen dimensions `parseRawEvents`
fixes before its line loop. -/
structure ScaleCfg where
  minX : ℤ
  maxX : ℤ
  minY : ℤ
  maxY : ℤ
  screenW : ℤ
  screenH : ℤ
deriving DecidableEq

/-- The parser's loop state: first-seen timestamp, current absolute position,
stroke-start data, the tracking flag and the events emitted so far. -/
structure ParseState where
  firstTimestamp : Frac
  currentX : ℤ
  currentY : ℤ
  touchStartTime : Frac
  touchStartX : ℤ
  touchStartY : ℤ
  tracking : Bool
  events : List TouchEvent
deriving DecidableEq

/-- Initial loop state of `parseRawEvents`. -/
def initParseState : ParseState :=
  { firstTimestamp := ⟨-1, 1⟩, currentX := -1, currentY := -1,
    touchStartTime := ⟨-1, 1⟩, touchStartX := -1, touchStartY := -1,
    tracking := false, events := [] }

/-- Source: `if touchStartX == -1 { touchStartX = currentX }` — the stroke
start X after the fallback to the last known absolute position. -/
def strokeStartX (st : ParseState) : ℤ :=
  if st.touchStartX = -1 then st.currentX else st.touchStartX

/-- Y analogue of `strokeStartX`. -/
def strokeStartY (st : ParseState) : ℤ :=
  if st.touchStartY = -1 then st.currentY else st.touchStartY

/-- Source: `duration := int((timestamp - touchStartTime) * 1000)`. -/
def strokeDuration (ts tStart : Frac) : ℤ :=
  Frac.trunc (Frac.mul (Frac.sub ts tStart) (Frac.ofInt 1000))

/-- Scaled stroke-start X (source: `scaledStartX`). -/
def scaledStartX (cfg : ScaleCfg) (st : ParseState) : ℤ :=
  scaleAxis (strokeStartX st) cfg.minX cfg.maxX cfg.screenW

/-- Scaled stroke-end X (source: `scaledEndX`). -/
def scaledEndX (cfg : ScaleCfg) (st : ParseState) : ℤ :=
  scaleAxis st.currentX cfg.minX cfg.maxX cfg.screenW

/-- Scaled stroke-start Y (source: `scaledStartY`). -/
def scaledStartY (cfg : ScaleCfg) (st : ParseState) : ℤ :=
  scaleAxis (strokeStartY st) cfg.minY cfg.maxY cfg.screenH

/-- Scaled stroke-end Y (source: `scaledEndY`). -/
def scaledEndY (cfg : ScaleCfg) (st : ParseState) : ℤ :=
  scaleAxis st.currentY cfg.minY cfg.maxY cfg.screenH

/-- Source: `dx*dx + dy*dy`, the squared displacement of the scaled
endpoints. -/
def strokeDistanceSq (cfg : ScaleCfg) (st : ParseState) : ℤ :=
  (scaledEndX cfg st - scaledStartX cfg st) * (scaledEndX cfg st - scaledStartX cfg st) +
  (scaledEndY cfg st - scaledStartY cfg st) * (scaledEndY cfg st - scaledStartY cfg st)

/-- The event built when a stroke closes: a `tap` at the scaled start if the
squared displacement is under 2500 and the duration under 300 ms, otherwise a
`swipe` to the scaled end carrying the duration. -/
def strokeEvent (cfg : ScaleCfg) (st : ParseState) (ts : Frac) (relativeMs : ℤ) : TouchEvent :=
  if strokeDistanceSq cfg st < 2500 ∧ strokeDuration ts st.touchStartTime < 300 then
    { timestamp := relativeMs, type := "tap",
      x := scaledStartX cfg st, y := scaledStartY cfg st, x2 := 0, y2 := 0, duration := 0 }
  else
    { timestamp := relativeMs, type := "swipe",
      x := scaledStartX cfg st, y := scaledStartY cfg st,
      x2 := scaledEndX cfg st, y2 := scaledEndY cfg st,
      duration := strokeDuration ts st.touchStartTime }

/-- The touch-up handling shared verbatim by the tracking-id and `BTN_TOUCH`
branches of the source: clear the tracking flag, fall back to the last known
position for a never-reported stroke start, skip the stroke if an endpoint
coordinate is still unknown, and otherwise scale, classify and append the
event. -/
def closeStroke (cfg : ScaleCfg) (st : ParseState) (ts : Frac) (relativeMs : ℤ) : ParseState :=
  if strokeStartX st = -1 ∨ strokeStartY st = -1 ∨ st.currentX = -1 ∨ st.currentY = -1 then
    { st with tracking := false }
  else
    { st with tracking := false, events := st.events ++ [strokeEvent cfg st ts relativeMs] }

/-- Source: `DOWN`/`UP` sentinel values are rewritten to `00000001`/`00000000`
before the hex parse. -/
def mapDownUp (v : String) : String :=
  if v = "DOWN" then "00000001" else if v = "UP" then "00000000" else v

/-- One iteration of the `parseRawEvents` line loop: record the first-seen
timestamp, normalise `DOWN`/`UP`, and interpret only `EV_ABS` entries —
tracking-id and `BTN_TOUCH` transitions open and close strokes, absolute
position reports update the current position and seed the stroke start. -/
def stepLine (cfg : ScaleCfg) (st : ParseState) (l? : Option ParsedLine) : ParseState :=
  match l? with
  | none => st
  | some l =>
    let firstTs := if st.firstTimestamp.isNeg then l.timestamp else st.firstTimestamp
    let relativeMs := Frac.trunc (Frac.mul (Frac.sub l.timestamp firstTs) (Frac.ofInt 1000))
    let evValue := mapDownUp l.evValue
    let st1 := { st with firstTimestamp := firstTs }
    if l.evType = "EV_ABS" then
      match parseHex32 evValue with
      | none => st1
      | some u =>
        let value := toInt32 u
        if l.evCode = "ABS_MT_TRACKING_ID" then
          if value ≠ -1 ∧ st1.tracking = false then
            { st1 with tracking := true, touchStartTime := l.timestamp,
                       touchStartX := -1, touchStartY := -1 }
          else if value = -1 ∧ st1.tracking = true then
            closeStroke cfg st1 l.timestamp relativeMs
          else st1
        else if l.evCode = "BTN_TOUCH" then
          if value = 1 ∧ st1.tracking = false then
            { st1 with tracking := true, touchStartTime := l.timestamp,
                       touchStartX := -1, touchStartY := -1 }
          else if value = 0 ∧ st1.tracking = true then
            closeStroke cfg st1 l.timestamp relativeMs
          else st1
        else if l.evCode = "ABS_MT_POSITION_X" then
          { st1 with currentX := value,
                     touchStartX := if st1.tracking ∧ st1.touchStartX = -1 then value
                                    else st1.touchStartX }
        else if l.evCode = "ABS_MT_POSITION_Y" then
          { st1 with currentY := value,
                     touchStartY := if st1.tracking ∧ st1.touchStartY = -1 then value
                                    else st1.touchStartY }
        else st1
    else st1

/-- Go `App.parseRawEvents`: convert a session's buffered raw lines into a
`TouchScript`.  Returns the empty-events script immediately when no raw lines
were captured; otherwise fixes the screen dimensions and effective axis
ranges and folds the line loop over the raw lines. -/
def parseRawEvents (session : TouchRecordingSession) : TouchScript :=
  let script0 : TouchScript :=
    { deviceID := session.deviceID, name := "", resolution := session.resolution,
      createdAt := session.createdAt, events := [] }
  if session.rawEvents.isEmpty then script0
  else
    let wh := parseResolution session.resolution
    let rx := effectiveRange session.minX session.maxX wh.1
    let ry := effectiveRange session.minY session.maxY wh.2
    let cfg : ScaleCfg :=
      { minX := rx.1, maxX := rx.2, minY := ry.1, maxY := ry.2,
        screenW := wh.1, screenH := wh.2 }
    let final := session.rawEvents.foldl (stepLine cfg) initParseState
    { script0 with events := final.events }

/-
UI selector engine (src/selector.go).  The `UINode` and `ElementSelector`
struct declarations themselves live in a repository file that is not under
src/; their fields are fixed by the uses in src/selector.go (text, resource
id, class name, content description, bounds string, child list; selector
type, value and match index).
-/

/-- A UI hierarchy node as used by src/selector.go.  The Go field `Class` is
rendered `className` because `class` is reserved in Lean. -/
structure UINode where
  text : String
  resourceID : String
  className : String
  contentDesc : String
  bounds : String
  nodes : List UINode

/-- A typed element query (Go struct `ElementSelector`).  The match index is
modelled as a natural number (the Go `int` is only ever used to index the
match list). -/
structure ElementSelector where
  type : String
  value : String
  index : ℕ
deriving DecidableEq

/-- Parsed bounds coordinates (Go struct `BoundsRect`). -/
structure BoundsRect where
  x1 : ℤ
  y1 : ℤ
  x2 : ℤ
  y2 : ℤ
deriving DecidableEq

/-- Helper for `ParseBounds`: parse a digit run, returning it and the rest. -/
def takeDigits : List Char → Option (ℕ × List Char)
  | [] => none
  | c :: cs =>
    match decDigit? c with
    | none => none
    | some d =>
      let rec go (acc : ℕ) : List Char → ℕ × List Char
        | [] => (acc, [])
        | c' :: cs' =>
          match decDigit? c' with
          | none => (acc, c' :: cs')
          | some d' => go (acc * 10 + d') cs'
      some (go d cs)

/-- Go `ParseBounds`: extract `(x1,y1,x2,y2)` from an Android bounds string
`"[x1,y1][x2,y2]"`.  The source matches the regex
`\[(\d+),(\d+)\]\[(\d+),(\d+)\]` anywhere in the string; well-formed bounds
strings are exactly of that shape, and the model parses that shape. -/
def ParseBounds (bounds : String) : Option BoundsRect :=
  match bounds.data with
  | '[' :: rest =>
    match takeDigits rest with
    | some (a, ',' :: r1) =>
      match takeDigits r1 with
      | some (b, ']' :: '[' :: r2) =>
        match takeDigits r2 with
        | some (c, ',' :: r3) =>
          match takeDigits r3 with
          | some (d, [']']) => some ⟨(a : ℤ), (b : ℤ), (c : ℤ), (d : ℤ)⟩
          | _ => none
        | _ => none
      | _ => none
    | _ => none
  | _ => none

/-- Go `BoundsRect.Contains`: point-in-rectangle test. -/
def BoundsRect.containsPt (b : BoundsRect) (x y : ℤ) : Bool :=
  decide (b.x1 ≤ x ∧ x ≤ b.x2 ∧ b.y1 ≤ y ∧ y ≤ b.y2)

/-- Go `BoundsRect.Area`. -/
def BoundsRect.area (b : BoundsRect) : ℤ := (b.x2 - b.x1) * (b.y2 - b.y1)

/-- Go `collectMatchingNodes`: depth-first collection (node before children,
children in order) of the nodes satisfying a predicate. -/
def collectMatchingNodes (p : UINode → Bool) (n : UINode) : List UINode :=
  (if p n then [n] else []) ++
    (n.nodes.attach.map (fun c => collectMatchingNodes p c.1)).flatten
termination_by n
decreasing_by
  have h := List.sizeOf_lt_of_mem c.2
  cases n
  simp only [UINode.mk.sizeOf_spec] at *
  omega

/-- Go `findElementByText`. -/
def findElementByText (root : UINode) (text : String) (index : ℕ) : Option UINode :=
  (collectMatchingNodes (fun n => n.text == text || n.contentDesc == text) root).get? index

/-- Go `strings.HasSuffix`. -/
def goHasSuffix (s suffix : String) : Bool := suffix.data.isSuffixOf s.data

/-- Contiguous-sublist test used to model `strings.Contains`. -/
def listContains (sub : List Char) : List Char → Bool
  | [] => sub.isEmpty
  | c :: cs => sub.isPrefixOf (c :: cs) || listContains sub cs

/-- Go `strings.Contains`. -/
def goContains (s sub : String) : Bool := listContains sub.data s.data

/-- Go `findElementByID`: exact resource-id match or `:id/<value>` suffix. -/
def findElementByID (root : UINode) (id : String) (index : ℕ) : Option UINode :=
  (collectMatchingNodes
    (fun n => n.resourceID == id || goHasSuffix n.resourceID (":id/" ++ id)) root).get? index

/-- Go `findElementByDesc`. -/
def findElementByDesc (root : UINode) (desc : String) (index : ℕ) : Option UINode :=
  (collectMatchingNodes (fun n => n.contentDesc == desc) root).get? index

/-- Go `findElementByClass`. -/
def findElementByClass (root : UINode) (cls : String) (index : ℕ) : Option UINode :=
  (collectMatchingNodes (fun n => n.className == cls) root).get? index

/-- Go `findElementByContains`: substring match on text or content
description. -/
def findElementByContains (root : UINode) (text : String) (index : ℕ) : Option UINode :=
  (collectMatchingNodes
    (fun n => goContains n.text text || goContains n.contentDesc text) root).get? index

/-- Modelled from the spec: `SearchElementsXPath` is defined in a repository
file that is not under src/; the spec treats it as an external XPath-style
evaluator whose result list is merely consumed.  No claim below exercises the
xpath branch, so it is modelled as the evaluator that finds nothing. -/
def SearchElementsXPath (_root : UINode) (_query : String) : List UINode := []

/-- The smallest-area list entry whose bounds contain the point, if any
(ties keep the earlier entry). -/
def minAreaContaining (x y : ℤ) : List UINode → Option UINode
  | [] => none
  | c :: cs =>
    let rest := minAreaContaining x y cs
    let cOk := match ParseBounds c.bounds with
               | some r => r.containsPt x y
               | none => false
    if cOk then
      match rest with
      | none => some c
      | some b =>
        let ca := match ParseBounds c.bounds with | some r => r.area | none => 0
        let ba := match ParseBounds b.bounds with | some r => r.area | none => 0
        if ca ≤ ba then some c else some b
    else rest

/-- `minAreaContaining` only returns entries of its input list. -/
theorem minAreaContaining_mem (x y : ℤ) :
    ∀ (l : List UINode) (c : UINode), minAreaContaining x y l = some c → c ∈ l := by
  intro l
  induction l with
  | nil => intro c h; simp [minAreaContaining] at h
  | cons a t ih =>
    intro c h
    simp only [minAreaContaining] at h
    rcases hrest : minAreaContaining x y t with _ | b <;> rw [hrest] at h <;> dsimp only at h
    · split at h
      · exact (Option.some_inj.mp h) ▸ List.mem_cons_self a t
      · simp at h
    · split at h
      · split at h
        · exact (Option.some_inj.mp h) ▸ List.mem_cons_self a t
        · exact List.mem_cons_of_mem a ((Option.some_inj.mp h) ▸ ih b hrest)
      · exact List.mem_cons_of_mem a ((Option.some_inj.mp h) ▸ ih b hrest)

/-- Modelled from the spec: `FindElementAtPoint` is defined in a repository
file that is not under src/.  Spec: smallest-enclosing-node point lookup —
descend into children, preferring the smallest-area child whose bounds
contain the point; if no child contains the point, the current node is the
match. -/
def FindElementAtPoint (n : UINode) (x y : ℤ) : UINode :=
  match h : minAreaContaining x y n.nodes with
  | none => n
  | some c => FindElementAtPoint c x y
termination_by n
decreasing_by
  have hmem := minAreaContaining_mem x y n.nodes c h
  have hlt := List.sizeOf_lt_of_mem hmem
  cases n
  simp only [UINode.mk.sizeOf_spec] at *
  omega

/-- Go `strings.TrimSpace` (ASCII whitespace, which is all that occurs in
coordinate selectors). -/
def goTrimSpace (s : String) : String := s.trim

/-- Go `App.FindElementBySelector` (src/selector.go): dispatch on the
selector type; `nil` root or selector yields no element.  The `bounds` case
is transcribed as in the source: it constructs and returns a fresh node
carrying the selector value as its bounds string, without consulting the
tree. -/
def FindElementBySelector (root : Option UINode) (selector : Option ElementSelector) :
    Option UINode :=
  match root, selector with
  | none, _ => none
  | _, none => none
  | some root, some sel =>
    if sel.type = "text" then findElementByText root sel.value sel.index
    else if sel.type = "id" then findElementByID root sel.value sel.index
    else if sel.type = "desc" ∨ sel.type = "description" then
      findElementByDesc root sel.value sel.index
    else if sel.type = "class" then findElementByClass root sel.value sel.index
    else if sel.type = "contains" then findElementByContains root sel.value sel.index
    else if sel.type = "xpath" then (SearchElementsXPath root sel.value).get? sel.index
    else if sel.type = "bounds" then
      some { text := "", resourceID := "", className := "", contentDesc := "",
             bounds := sel.value, nodes := [] }
    else if sel.type = "coordinates" then
      match goSplit ',' sel.value with
      | [px, py] => some (FindElementAtPoint root (goAtoi (goTrimSpace px)) (goAtoi (goTrimSpace py)))
      | _ => none
    else none

/-
Recorder / player control plane (src/unnamed/part_001).  The Go code keeps
four package-level maps guarded by two mutexes; calls observe and mutate them
under lock, so each call is modelled as a function from the registry state to
a new state plus a result.  Map keys are device-id strings; a Go map is
modelled by an association list whose `delete` removes every occurrence.
-/

/-- The per-device registries of the touch subsystem: the recording command,
cancel-function and session maps, and the playback cancel-function map
(the active-playback marker). -/
structure AppState where
  touchRecordCmd : List String
  touchRecordCancel : List String
  touchRecordData : List (String × TouchRecordingSession)
  touchPlaybackCancel : List String
deriving DecidableEq

/-- The results of the external calls `StartTouchRecording` performs before
registering a session: the located input device (or the locator error), the
best-effort resolution, the detected axis ranges, whether the two pipe
creations and the process start succeed, and the formatted start time. -/
structure StartOracle where
  inputDevice : Except String String
  resolution : String
  stdoutPipeOk : Bool
  stderrPipeOk : Bool
  startOk : Bool
  maxX : ℤ
  maxY : ℤ
  minX : ℤ
  minY : ℤ
  createdAt : String

/-- Go `App.StartTouchRecording`: fail fast when the device already has a
recording command registered (state untouched); otherwise run the external
calls in source order, failing (state untouched) where the source returns an
error, and register the command, cancel function and fresh session. -/
def StartTouchRecording (st : AppState) (deviceId : String) (o : StartOracle) :
    AppState × Except String Unit :=
  if st.touchRecordCmd.contains deviceId then
    (st, .error "already recording on this device")
  else
    match o.inputDevice with
    | .error e => (st, .error ("failed to find touch input device: " ++ e))
    | .ok inputDevice =>
      if o.stdoutPipeOk = false then (st, .error "failed to create stdout pipe")
      else if o.stderrPipeOk = false then (st, .error "failed to create stderr pipe")
      else if o.startOk = false then (st, .error "failed to start getevent")
      else
        ({ st with
            touchRecordCmd := deviceId :: st.touchRecordCmd,
            touchRecordCancel := deviceId :: st.touchRecordCancel,
            touchRecordData :=
              (deviceId,
               { deviceID := deviceId, createdAt := o.createdAt, rawEvents := [],
                 resolution := o.resolution, inputDevice := inputDevice,
                 maxX := o.maxX, maxY := o.maxY, minX := o.minX, minY := o.minY })
              :: st.touchRecordData },
         .ok ())

/-- Go `App.PlayTouchScript` (synchronous part): fail fast when a playback
cancel function is already registered for the device (state untouched);
otherwise register one and return (the background task is `playbackLoop`
below). -/
def PlayTouchScript (st : AppState) (deviceId : String) (_script : TouchScript) :
    AppState × Except String Unit :=
  if st.touchPlaybackCancel.contains deviceId then
    (st, .error "playback already in progress")
  else
    ({ st with touchPlaybackCancel := deviceId :: st.touchPlaybackCancel }, .ok ())

/-- Go `App.StopTouchPlayback`: cancel and remove the playback marker if
present (Go `delete` on a map; removing every list occurrence models the
unique-key map). -/
def StopTouchPlayback (st : AppState) (deviceId : String) : AppState :=
  { st with touchPlaybackCancel := st.touchPlaybackCancel.filter (· ≠ deviceId) }

/-
Playback background task.  The goroutine in `PlayTouchScript` is sequential;
its interactions with the environment are modelled as an action trace.
Cancellation (`ctx.Done()`) is polled at two points per iteration — before
the event and while sleeping — and whether the poll observes cancellation is
an oracle (`cancelBefore`/`cancelDuring`), as is the wall-clock elapsed
milliseconds the iteration reads (`elapsed`).
-/

/-- One observable step of the playback goroutine. -/
inductive PlayAction where
  | sleep (ms : ℤ)
  | localWait (ms : ℤ)
  | deviceCmd (cmd : String)
  | progress (current total : ℕ)
  | completed
deriving DecidableEq

/-- Source: `fmt.Sprintf("shell input tap %d %d", event.X, event.Y)`. -/
def tapCmd (e : TouchEvent) : String :=
  "shell input tap " ++ toString e.x ++ " " ++ toString e.y

/-- Source: `fmt.Sprintf("shell input swipe %d %d %d %d %d", ...)`. -/
def swipeCmd (e : TouchEvent) : String :=
  "shell input swipe " ++ toString e.x ++ " " ++ toString e.y ++ " " ++
    toString e.x2 ++ " " ++ toString e.y2 ++ " " ++ toString e.duration

/-- The playback goroutine's per-event loop, producing the trace of actions
from event index `i` on.  Per iteration: return if the pre-event poll sees
cancellation; sleep until the event's timestamp if it is still in the future,
returning if cancellation arrives during the sleep; then execute the event
(`tap`/`swipe` issue a device command and emit a progress notification,
`wait` sleeps locally, an unknown type is skipped). -/
def playbackLoop (cancelBefore cancelDuring : ℕ → Bool) (elapsed : ℕ → ℤ) (total : ℕ) :
    List TouchEvent → ℕ → List PlayAction
  | [], _ => []
  | e :: rest, i =>
    if cancelBefore i then []
    else if e.timestamp > elapsed i ∧ cancelDuring i then []
    else
      (if e.timestamp > elapsed i then [PlayAction.sleep (e.timestamp - elapsed i)] else []) ++
      (if e.type = "tap" then
        PlayAction.deviceCmd (tapCmd e) :: PlayAction.progress (i + 1) total ::
          playbackLoop cancelBefore cancelDuring elapsed total rest (i + 1)
      else if e.type = "swipe" then
        PlayAction.deviceCmd (swipeCmd e) :: PlayAction.progress (i + 1) total ::
          playbackLoop cancelBefore cancelDuring elapsed total rest (i + 1)
      else if e.type = "wait" then
        PlayAction.localWait e.duration ::
          playbackLoop cancelBefore cancelDuring elapsed total rest (i + 1)
      else
        playbackLoop cancelBefore cancelDuring elapsed total rest (i + 1))

/-- The whole playback goroutine: run the loop from index 0, then the
deferred block — delete the playback marker and emit the completion
notification — which runs on every exit path (cancelled or completed). -/
def playbackRun (st : AppState) (deviceId : String) (script : TouchScript)
    (cancelBefore cancelDuring : ℕ → Bool) (elapsed : ℕ → ℤ) :
    AppState × List PlayAction :=
  ({ st with touchPlaybackCancel := st.touchPlaybackCancel.filter (· ≠ deviceId) },
   playbackLoop cancelBefore cancelDuring elapsed script.events.length script.events 0
     ++ [PlayAction.completed])

/-
Script store serialization (src/unnamed/part_001 `SaveTouchScript` /
`LoadTouchScripts`).  The Go code round-trips a `TouchScript` through
`encoding/json`; the JSON document is modelled as a tree, with Go's
struct-to-object mapping transcribed field by field.  The `TouchScript`
struct declaration carrying the json tags is in a repository file that is not
under src/; the field set below is modelled from the spec's description of
the persisted representation (device id, name, resolution, creation
timestamp, ordered event list with fields timestamp/type/x/y/x2/y2/duration).
-/

/-- A JSON document. -/
inductive Json where
  | str (s : String)
  | num (n : ℤ)
  | arr (elems : List Json)
  | obj (fields : List (String × Json))

/-- Go `json.Marshal` on a `TouchEvent`. -/
def encodeTouchEvent (e : TouchEvent) : Json :=
  .obj [("timestamp", .num e.timestamp), ("type", .str e.type),
        ("x", .num e.x), ("y", .num e.y), ("x2", .num e.x2), ("y2", .num e.y2),
        ("duration", .num e.duration)]

/-- Field access for `json.Unmarshal` into an integer field: a missing field
keeps Go's zero value, a wrong-typed field is an unmarshal error. -/
def getNumD (fields : List (String × Json)) (key : String) : Option ℤ :=
  match fields.lookup key with
  | none => some 0
  | some (.num n) => some n
  | some _ => none

/-- Field access for `json.Unmarshal` into a string field. -/
def getStrD (fields : List (String × Json)) (key : String) : Option String :=
  match fields.lookup key with
  | none => some ""
  | some (.str s) => some s
  | some _ => none

/-- Go `json.Unmarshal` into a `TouchEvent`. -/
def decodeTouchEvent (j : Json) : Option TouchEvent :=
  match j with
  | .obj fields =>
    match getNumD fields "timestamp", getStrD fields "type", getNumD fields "x",
          getNumD fields "y", getNumD fields "x2", getNumD fields "y2",
          getNumD fields "duration" with
    | some ts, some ty, some x, some y, some x2, some y2, some dur =>
      some ⟨ts, ty, x, y, x2, y2, dur⟩
    | _, _, _, _, _, _, _ => none
  | _ => none

/-- Go `json.Marshal` on a `TouchScript` (as written by `SaveTouchScript`). -/
def encodeTouchScript (s : TouchScript) : Json :=
  .obj [("deviceId", .str s.deviceID), ("name", .str s.name),
        ("resolution", .str s.resolution), ("createdAt", .str s.createdAt),
        ("events", .arr (s.events.map encodeTouchEvent))]

/-- Go `json.Unmarshal` of a JSON array into an event slice: element-wise
decoding, failing if any element fails. -/
def decodeEventList : List Json → Option (List TouchEvent)
  | [] => some []
  | j :: js =>
    match decodeTouchEvent j, decodeEventList js with
    | some e, some t => some (e :: t)
    | _, _ => none

/-- Field access for `json.Unmarshal` into the event slice. -/
def getEventsD (fields : List (String × Json)) : Option (List TouchEvent) :=
  match fields.lookup "events" with
  | none => some []
  | some (.arr js) => decodeEventList js
  | some _ => none

/-- Go `json.Unmarshal` into a `TouchScript` (as read by
`LoadTouchScripts`). -/
def decodeTouchScript (j : Json) : Option TouchScript :=
  match j with
  | .obj fields =>
    match getStrD fields "deviceId", getStrD fields "name",
          getStrD fields "resolution", getStrD fields "createdAt",
          getEventsD fields with
    | some d, some n, some r, some c, some evs => some ⟨d, n, r, c, evs⟩
    | _, _, _, _, _ => none
  | _ => none

/-
Arithmetic bridge: the exact-fraction computations of the scaling code equal
the spec's real-valued rounding formula.
-/

/-- For a nonnegative value with positive denominator, Go truncation agrees
with the floor of the represented rational. -/
theorem Frac.trunc_eq_floor (p q : ℤ) (hp : 0 ≤ p) (hq : 0 < q) :
    Frac.trunc ⟨p, q⟩ = ⌊(p : ℚ) / (q : ℚ)⌋ := by
  rcases eq_or_lt_of_le hp with h0 | hpos
  · rw [Frac.trunc, ← h0]
    simp
  · have hq0 : (0 : ℚ) < (q : ℚ) := by exact_mod_cast hq
    have hsign : (p * q).sign = 1 := Int.sign_eq_one_of_pos (mul_pos hpos hq)
    rw [Frac.trunc]
    dsimp only
    rw [hsign, one_mul]
    have hpq : ((p.natAbs : ℤ)) = p := Int.natAbs_of_nonneg hp
    have hqq : ((q.natAbs : ℤ)) = q := Int.natAbs_of_nonneg hq.le
    have hqn : 0 < q.natAbs := Int.natAbs_pos.mpr (ne_of_gt hq)
    have hlow : (p.natAbs / q.natAbs) * q.natAbs ≤ p.natAbs :=
      Nat.div_mul_le_self p.natAbs q.natAbs
    have hmod := Nat.div_add_mod p.natAbs q.natAbs
    have hmlt := Nat.mod_lt p.natAbs hqn
    have hhigh : p.natAbs < (p.natAbs / q.natAbs + 1) * q.natAbs := by
      have hexp : (p.natAbs / q.natAbs + 1) * q.natAbs =
          q.natAbs * (p.natAbs / q.natAbs) + q.natAbs := by ring
      omega
    have hlowZ : ((p.natAbs / q.natAbs : ℕ) : ℤ) * q ≤ p := by
      rw [← hpq, ← hqq]
      exact_mod_cast hlow
    have hhighZ : p < (((p.natAbs / q.natAbs : ℕ) : ℤ) + 1) * q := by
      rw [← hpq, ← hqq]
      exact_mod_cast hhigh
    symm
    rw [Int.floor_eq_iff]
    constructor
    · rw [le_div_iff₀ hq0]
      exact_mod_cast hlowZ
    · rw [div_lt_iff₀ hq0]
      exact_mod_cast hhighZ

theorem floor_half : ⌊(1 / 2 : ℚ)⌋ = 0 := by
  rw [Int.floor_eq_iff]
  constructor
  · norm_num
  · norm_num

theorem floor_int_add_half (n : ℤ) : ⌊(n : ℚ) + 1 / 2⌋ = n := by
  rw [add_comm, Int.floor_add_int, floor_half, zero_add]

/-- On a non-degenerate range with nonnegative target dimension, the source's
float scaling computes exactly the spec formula
`floor((raw - lo) * dim / (hi - lo) + 1/2)`. -/
theorem scaleAxis_formula (raw lo hi dim : ℤ) (h : lo < hi) (hraw : lo ≤ raw)
    (hdim : 0 ≤ dim) :
    scaleAxis raw lo hi dim =
      ⌊((raw : ℚ) - lo) * dim / ((hi : ℚ) - lo) + 1 / 2⌋ := by
  rw [scaleAxis, if_pos (by omega : hi > lo)]
  have e1 : Frac.add
      (Frac.div (Frac.mul (Frac.ofInt (raw - lo)) (Frac.ofInt dim)) (Frac.ofInt (hi - lo)))
      ⟨1, 2⟩ =
      ⟨2 * ((raw - lo) * dim) + (hi - lo), 2 * (hi - lo)⟩ := by
    simp only [Frac.add, Frac.div, Frac.mul, Frac.ofInt, Frac.mk.injEq]
    constructor <;> ring
  rw [e1]
  have hpnn : (0 : ℤ) ≤ 2 * ((raw - lo) * dim) + (hi - lo) := by
    have hx : (0 : ℤ) ≤ (raw - lo) * dim := mul_nonneg (by omega) hdim
    omega
  rw [Frac.trunc_eq_floor _ _ hpnn (by omega)]
  congr 1
  have hwq : ((hi : ℚ) - lo) ≠ 0 := by
    have h2 : (0 : ℚ) < (hi : ℚ) - lo := by
      have h3 : ((hi - lo : ℤ) : ℚ) > 0 := by exact_mod_cast (by omega : (0 : ℤ) < hi - lo)
      push_cast at h3
      linarith
    exact ne_of_gt h2
  push_cast
  field_simp
  ring

theorem scaleAxis_min (lo hi dim : ℤ) (h : lo < hi) (hdim : 0 ≤ dim) :
    scaleAxis lo lo hi dim = 0 := by
  rw [scaleAxis_formula lo lo hi dim h le_rfl hdim]
  rw [show ((lo : ℚ) - lo) = 0 by ring, zero_mul, zero_div, zero_add]
  exact floor_half

theorem scaleAxis_max (lo hi dim : ℤ) (h : lo < hi) (hdim : 0 ≤ dim) :
    scaleAxis hi lo hi dim = dim := by
  rw [scaleAxis_formula hi lo hi dim h h.le hdim]
  have hwq : ((hi : ℚ) - lo) ≠ 0 := by
    have h2 : (0 : ℚ) < (hi : ℚ) - lo := by
      have h3 : ((hi - lo : ℤ) : ℚ) > 0 := by exact_mod_cast (by omega : (0 : ℤ) < hi - lo)
      push_cast at h3
      linarith
    exact ne_of_gt h2
  rw [mul_comm, mul_div_assoc, div_self hwq, mul_one]
  exact floor_int_add_half dim

/-- After the degenerate-range fallback, every nonnegative raw coordinate is
mapped to itself. -/
theorem scaleAxis_identity (raw dim : ℤ) (hraw : 0 ≤ raw) :
    scaleAxis raw 0 dim dim = raw := by
  rcases lt_or_le 0 dim with hdim | hdim
  · rw [scaleAxis_formula raw 0 dim dim hdim hraw hdim.le]
    simp only [Int.cast_zero, sub_zero]
    have hdq : (dim : ℚ) ≠ 0 := by
      have : (0 : ℚ) < (dim : ℚ) := by exact_mod_cast hdim
      exact ne_of_gt this
    rw [mul_div_assoc, div_self hdq, mul_one]
    exact floor_int_add_half raw
  · rw [scaleAxis, if_neg (by omega)]

/-- C1: for every closed stroke with known endpoint coordinates, the parser
emits a tap at the scaled start point exactly when the squared Euclidean
displacement between the scaled endpoints is strictly less than 2500 and the
stroke duration is strictly less than 300 ms, and otherwise emits a swipe
from start to end carrying the duration (so squared displacement 2499 with
duration 299 ms gives a tap, and squared displacement 2501 or duration 301 ms
gives a swipe). -/
theorem closeStroke_classification (cfg : ScaleCfg) (st : ParseState) (ts : Frac)
    (relativeMs : ℤ)
    (hsx : strokeStartX st ≠ -1) (hsy : strokeStartY st ≠ -1)
    (hcx : st.currentX ≠ -1) (hcy : st.currentY ≠ -1) :
    closeStroke cfg st ts relativeMs =
      { st with tracking := false,
                events := st.events ++ [strokeEvent cfg st ts relativeMs] } ∧
    ((strokeEvent cfg st ts relativeMs).type = "tap" ↔
      strokeDistanceSq cfg st < 2500 ∧ strokeDuration ts st.touchStartTime < 300) ∧
    (strokeDistanceSq cfg st < 2500 ∧ strokeDuration ts st.touchStartTime < 300 →
      strokeEvent cfg st ts relativeMs =
        { timestamp := relativeMs, type := "tap",
          x := scaledStartX cfg st, y := scaledStartY cfg st,
          x2 := 0, y2 := 0, duration := 0 }) ∧
    (¬(strokeDistanceSq cfg st < 2500 ∧ strokeDuration ts st.touchStartTime < 300) →
      strokeEvent cfg st ts relativeMs =
        { timestamp := relativeMs, type := "swipe",
          x := scaledStartX cfg st, y := scaledStartY cfg st,
          x2 := scaledEndX cfg st, y2 := scaledEndY cfg st,
          duration := strokeDuration ts st.touchStartTime }) := by
  refine ⟨?_, ?_, ?_, ?_⟩
  · rw [closeStroke, if_neg]
    push_neg
    exact ⟨hsx, hsy, hcx, hcy⟩
  · by_cases hcond : strokeDistanceSq cfg st < 2500 ∧ strokeDuration ts st.touchStartTime < 300
    · rw [strokeEvent, if_pos hcond]
      exact ⟨fun _ => hcond, fun _ => rfl⟩
    · rw [strokeEvent, if_neg hcond]
      exact ⟨fun h => by simp at h, fun h => absurd h hcond⟩
  · intro hcond
    rw [strokeEvent, if_pos hcond]
  · intro hcond
    rw [strokeEvent, if_neg hcond]

/-- Witness for C1 at concrete strokes (identity scaling via degenerate
config): squared displacement 2401 with duration 299 ms is a tap, the same
displacement with duration 301 ms is a swipe, and squared displacement 2501
with duration 0 is a swipe. -/
theorem closeStroke_classification_witness :
    (strokeEvent ⟨0, 0, 0, 0, 0, 0⟩ ⟨⟨0, 1⟩, 59, 10, ⟨0, 1⟩, 10, 10, true, []⟩
      ⟨299, 1000⟩ 299).type = "tap" ∧
    (strokeEvent ⟨0, 0, 0, 0, 0, 0⟩ ⟨⟨0, 1⟩, 59, 10, ⟨0, 1⟩, 10, 10, true, []⟩
      ⟨301, 1000⟩ 301).type = "swipe" ∧
    (strokeEvent ⟨0, 0, 0, 0, 0, 0⟩ ⟨⟨0, 1⟩, 60, 11, ⟨0, 1⟩, 10, 10, true, []⟩
      ⟨0, 1⟩ 0).type = "swipe" ∧
    closeStroke ⟨0, 0, 0, 0, 0, 0⟩ ⟨⟨0, 1⟩, 59, 10, ⟨0, 1⟩, 10, 10, true, []⟩
      ⟨299, 1000⟩ 299 =
      { firstTimestamp := ⟨0, 1⟩, currentX := 59, currentY := 10,
        touchStartTime := ⟨0, 1⟩, touchStartX := 10, touchStartY := 10,
        tracking := false,
        events := [strokeEvent ⟨0, 0, 0, 0, 0, 0⟩ ⟨⟨0, 1⟩, 59, 10, ⟨0, 1⟩, 10, 10, true, []⟩
          ⟨299, 1000⟩ 299] } := by
  have h1 := closeStroke_classification ⟨0, 0, 0, 0, 0, 0⟩
    ⟨⟨0, 1⟩, 59, 10, ⟨0, 1⟩, 10, 10, true, []⟩ ⟨299, 1000⟩ 299
    (by decide) (by decide) (by decide) (by decide)
  have h2 := closeStroke_classification ⟨0, 0, 0, 0, 0, 0⟩
    ⟨⟨0, 1⟩, 59, 10, ⟨0, 1⟩, 10, 10, true, []⟩ ⟨301, 1000⟩ 301
    (by decide) (by decide) (by decide) (by decide)
  have h3 := closeStroke_classification ⟨0, 0, 0, 0, 0, 0⟩
    ⟨⟨0, 1⟩, 60, 11, ⟨0, 1⟩, 10, 10, true, []⟩ ⟨0, 1⟩ 0
    (by decide) (by decide) (by decide) (by decide)
  refine ⟨h1.2.1.mpr (by decide), ?_, ?_, h1.1⟩
  · rw [h2.2.2.2 (by decide)]
  · rw [h3.2.2.2 (by decide)]

/-- C2: for every session with a non-degenerate detected X range and a
resolution parsing to width `W` (and height `H`), the parser keeps the
detected range as the effective scaling range, maps the raw minimum to screen
0 and the raw maximum to the screen dimension, and on raws at or above the
minimum follows `screen = floor((raw - rawMin) * screenDim / (rawMax -
rawMin) + 1/2)`; symmetrically for the Y axis. -/
theorem parse_scaling_endpoints (session : TouchRecordingSession) (W H : ℤ)
    (hres : parseResolution session.resolution = (W, H))
    (hW : 0 ≤ W) (hH : 0 ≤ H)
    (hx : session.minX < session.maxX) (hy : session.minY < session.maxY) :
    effectiveRange session.minX session.maxX W = (session.minX, session.maxX) ∧
    effectiveRange session.minY session.maxY H = (session.minY, session.maxY) ∧
    scaleAxis session.minX session.minX session.maxX W = 0 ∧
    scaleAxis session.maxX session.minX session.maxX W = W ∧
    scaleAxis session.minY session.minY session.maxY H = 0 ∧
    scaleAxis session.maxY session.minY session.maxY H = H ∧
    (∀ raw : ℤ, session.minX ≤ raw →
      scaleAxis raw session.minX session.maxX W =
        ⌊((raw : ℚ) - session.minX) * W / ((session.maxX : ℚ) - session.minX) + 1 / 2⌋) ∧
    (∀ raw : ℤ, session.minY ≤ raw →
      scaleAxis raw session.minY session.maxY H =
        ⌊((raw : ℚ) - session.minY) * H / ((session.maxY : ℚ) - session.minY) + 1 / 2⌋) := by
  refine ⟨?_, ?_, scaleAxis_min _ _ _ hx hW, scaleAxis_max _ _ _ hx hW,
          scaleAxis_min _ _ _ hy hH, scaleAxis_max _ _ _ hy hH,
          fun raw hraw => scaleAxis_formula raw _ _ _ hx hraw hW,
          fun raw hraw => scaleAxis_formula raw _ _ _ hy hraw hH⟩
  · rw [effectiveRange, if_neg (by omega)]
  · rw [effectiveRange, if_neg (by omega)]

/-- Witness for C2 on a session with X range `[0,1000]`, Y range `[0,2000]`
and resolution `500x800`. -/
theorem parse_scaling_endpoints_witness :
    scaleAxis 0 0 1000 500 = 0 ∧ scaleAxis 1000 0 1000 500 = 500 ∧
    scaleAxis 0 0 2000 800 = 0 ∧ scaleAxis 2000 0 2000 800 = 800 := by
  have h := parse_scaling_endpoints ⟨"d", "t", [], "500x800", "i", 1000, 2000, 0, 0⟩
    500 800 (by decide) (by decide) (by decide) (by decide) (by decide)
  exact ⟨h.2.2.1, h.2.2.2.1, h.2.2.2.2.1, h.2.2.2.2.2.1⟩

/-- Concrete degenerate-range session for the C3 counterexample: both
detected axis ranges are `[0,0]`, and a stroke is recorded at raw position
`(-2, -2)` (tracking id 42 down, position reports `0xfffffffe` = -2,
tracking id -1 up). -/
def degenSession : TouchRecordingSession :=
  { deviceID := "dev1", createdAt := "t0", resolution := "1080x1920",
    inputDevice := "/dev/input/event4", maxX := 0, maxY := 0, minX := 0, minY := 0,
    rawEvents :=
      [ some ⟨⟨0, 1⟩, "EV_ABS", "ABS_MT_TRACKING_ID", "0000002a"⟩,
        some ⟨⟨0, 1⟩, "EV_ABS", "ABS_MT_POSITION_X", "fffffffe"⟩,
        some ⟨⟨0, 1⟩, "EV_ABS", "ABS_MT_POSITION_Y", "fffffffe"⟩,
        some ⟨⟨0, 1⟩, "EV_ABS", "ABS_MT_TRACKING_ID", "ffffffff"⟩ ] }

/-- Counterexample to C3 as stated: on a degenerate-range session the raw
stroke coordinate `-2` (hex `fffffffe`) is emitted as `-1`, not passed
through unchanged — rounding `int(v + 0.5)` moves negative raws up by one. -/
theorem degenerate_identity_counterexample :
    degenSession.maxX = degenSession.minX ∧
    parseHex32 "fffffffe" = some 4294967294 ∧
    toInt32 4294967294 = -2 ∧
    (parseRawEvents degenSession).events =
      [{ timestamp := 0, type := "tap", x := -1, y := -1, x2 := 0, y2 := 0, duration := 0 }] ∧
    (parseRawEvents degenSession).events ≠
      [{ timestamp := 0, type := "tap", x := -2, y := -2, x2 := 0, y2 := 0, duration := 0 }] := by
  exact ⟨rfl, by decide, by decide, by decide, by decide⟩

/-- C3 amended: for every session whose detected axis range is degenerate the
parser substitutes the range `[0, screenDimension]` for that axis (so the
guarded scaling never divides by a zero-width range), and every nonnegative
raw coordinate on that axis passes through to the emitted event unchanged. -/
theorem degenerate_fallback_identity (session : TouchRecordingSession) (W H : ℤ)
    (hres : parseResolution session.resolution = (W, H))
    (hdeg : session.maxX = session.minX) :
    effectiveRange session.minX session.maxX W = (0, W) ∧
    (∀ raw : ℤ, 0 ≤ raw → scaleAxis raw 0 W W = raw) := by
  constructor
  · rw [effectiveRange, if_pos hdeg]
  · intro raw hraw
    exact scaleAxis_identity raw W hraw

/-- Witness for the amended C3 on a session with degenerate X range `[7,7]`
and resolution `500x800`. -/
theorem degenerate_fallback_identity_witness :
    effectiveRange 7 7 500 = (0, 500) ∧ scaleAxis 3 0 500 500 = 3 := by
  have h := degenerate_fallback_identity ⟨"d", "t", [], "500x800", "i", 7, 9, 7, 9⟩
    500 800 (by decide) rfl
  exact ⟨h.1, h.2 3 (by decide)⟩

/-- A tracking-id line with a non-sentinel value on a non-tracking state
opens a stroke (source lines: `value != -1 && !tracking`). -/
theorem stepLine_trackingid_down (cfg : ScaleCfg) (st : ParseState) (l : ParsedLine) (u : ℕ)
    (hty : l.evType = "EV_ABS") (hcode : l.evCode = "ABS_MT_TRACKING_ID")
    (hval : parseHex32 (mapDownUp l.evValue) = some u) (hne : toInt32 u ≠ -1)
    (htr : st.tracking = false) :
    stepLine cfg st (some l) =
      { st with
          firstTimestamp := if st.firstTimestamp.isNeg then l.timestamp
                            else st.firstTimestamp,
          tracking := true, touchStartTime := l.timestamp,
          touchStartX := -1, touchStartY := -1 } := by
  simp only [stepLine, hty, hcode, hval, if_true, String.reduceEq, reduceIte]
  rw [if_pos]
  exact ⟨hne, htr⟩

/-- A `BTN_TOUCH` line with value 1 on a non-tracking state opens a stroke. -/
theorem stepLine_btntouch_down (cfg : ScaleCfg) (st : ParseState) (l : ParsedLine) (u : ℕ)
    (hty : l.evType = "EV_ABS") (hcode : l.evCode = "BTN_TOUCH")
    (hval : parseHex32 (mapDownUp l.evValue) = some u) (hone : toInt32 u = 1)
    (htr : st.tracking = false) :
    stepLine cfg st (some l) =
      { st with
          firstTimestamp := if st.firstTimestamp.isNeg then l.timestamp
                            else st.firstTimestamp,
          tracking := true, touchStartTime := l.timestamp,
          touchStartX := -1, touchStartY := -1 } := by
  simp only [stepLine, hty, hcode, hval, if_true, String.reduceEq, reduceIte]
  rw [if_pos]
  exact ⟨hone, htr⟩

/-- A tracking-id line with the sentinel value -1 on a tracking state closes
the stroke through `closeStroke` at the line's relative timestamp. -/
theorem stepLine_trackingid_up (cfg : ScaleCfg) (st : ParseState) (l : ParsedLine) (u : ℕ)
    (hty : l.evType = "EV_ABS") (hcode : l.evCode = "ABS_MT_TRACKING_ID")
    (hval : parseHex32 (mapDownUp l.evValue) = some u) (hz : toInt32 u = -1)
    (htr : st.tracking = true) :
    stepLine cfg st (some l) =
      closeStroke cfg
        { st with firstTimestamp := if st.firstTimestamp.isNeg then l.timestamp
                                    else st.firstTimestamp }
        l.timestamp
        (Frac.trunc (Frac.mul
          (Frac.sub l.timestamp
            (if st.firstTimestamp.isNeg then l.timestamp else st.firstTimestamp))
          (Frac.ofInt 1000))) := by
  simp only [stepLine, hty, hcode, hval, if_true, String.reduceEq, reduceIte]
  rw [if_neg, if_pos]
  · exact ⟨hz, htr⟩
  · simp [hz, htr]

/-- A `BTN_TOUCH` line with value 0 on a tracking state closes the stroke
through the same `closeStroke` code. -/
theorem stepLine_btntouch_up (cfg : ScaleCfg) (st : ParseState) (l : ParsedLine) (u : ℕ)
    (hty : l.evType = "EV_ABS") (hcode : l.evCode = "BTN_TOUCH")
    (hval : parseHex32 (mapDownUp l.evValue) = some u) (hz : toInt32 u = 0)
    (htr : st.tracking = true) :
    stepLine cfg st (some l) =
      closeStroke cfg
        { st with firstTimestamp := if st.firstTimestamp.isNeg then l.timestamp
                                    else st.firstTimestamp }
        l.timestamp
        (Frac.trunc (Frac.mul
          (Frac.sub l.timestamp
            (if st.firstTimestamp.isNeg then l.timestamp else st.firstTimestamp))
          (Frac.ofInt 1000))) := by
  simp only [stepLine, hty, hcode, hval, if_true, String.reduceEq, reduceIte]
  rw [if_neg, if_pos]
  · exact ⟨hz, htr⟩
  · simp [hz, htr]

/-- C4: strokes open when a tracking id becomes non-sentinel or a `BTN_TOUCH`
value transitions to 1 (with `DOWN`/`UP` read as 1/0), close on the matching
up transition (tracking id -1 or `BTN_TOUCH` 0) through the same
stroke-closing code for both protocols, and only `EV_ABS` entries are
interpreted. -/
theorem touch_protocol_transitions :
    (∀ (cfg : ScaleCfg) (st : ParseState) (l : ParsedLine) (u : ℕ),
       l.evType = "EV_ABS" → l.evCode = "ABS_MT_TRACKING_ID" →
       parseHex32 (mapDownUp l.evValue) = some u → toInt32 u ≠ -1 → st.tracking = false →
       stepLine cfg st (some l) =
         { st with
             firstTimestamp := if st.firstTimestamp.isNeg then l.timestamp
                               else st.firstTimestamp,
             tracking := true, touchStartTime := l.timestamp,
             touchStartX := -1, touchStartY := -1 }) ∧
    (∀ (cfg : ScaleCfg) (st : ParseState) (l : ParsedLine) (u : ℕ),
       l.evType = "EV_ABS" → l.evCode = "BTN_TOUCH" →
       parseHex32 (mapDownUp l.evValue) = some u → toInt32 u = 1 → st.tracking = false →
       stepLine cfg st (some l) =
         { st with
             firstTimestamp := if st.firstTimestamp.isNeg then l.timestamp
                               else st.firstTimestamp,
             tracking := true, touchStartTime := l.timestamp,
             touchStartX := -1, touchStartY := -1 }) ∧
    (∀ (cfg : ScaleCfg) (st : ParseState) (l : ParsedLine) (u : ℕ),
       l.evType = "EV_ABS" → l.evCode = "ABS_MT_TRACKING_ID" →
       parseHex32 (mapDownUp l.evValue) = some u → toInt32 u = -1 → st.tracking = true →
       stepLine cfg st (some l) =
         closeStroke cfg
           { st with firstTimestamp := if st.firstTimestamp.isNeg then l.timestamp
                                       else st.firstTimestamp }
           l.timestamp
           (Frac.trunc (Frac.mul
             (Frac.sub l.timestamp
               (if st.firstTimestamp.isNeg then l.timestamp else st.firstTimestamp))
             (Frac.ofInt 1000)))) ∧
    (∀ (cfg : ScaleCfg) (st : ParseState) (l : ParsedLine) (u : ℕ),
       l.evType = "EV_ABS" → l.evCode = "BTN_TOUCH" →
       parseHex32 (mapDownUp l.evValue) = some u → toInt32 u = 0 → st.tracking = true →
       stepLine cfg st (some l) =
         closeStroke cfg
           { st with firstTimestamp := if st.firstTimestamp.isNeg then l.timestamp
                                       else st.firstTimestamp }
           l.timestamp
           (Frac.trunc (Frac.mul
             (Frac.sub l.timestamp
               (if st.firstTimestamp.isNeg then l.timestamp else st.firstTimestamp))
             (Frac.ofInt 1000)))) ∧
    (∀ (cfg : ScaleCfg) (st : ParseState) (l₁ l₂ : ParsedLine) (u₁ u₂ : ℕ),
       l₁.timestamp = l₂.timestamp →
       l₁.evType = "EV_ABS" → l₂.evType = "EV_ABS" →
       l₁.evCode = "ABS_MT_TRACKING_ID" → l₂.evCode = "BTN_TOUCH" →
       parseHex32 (mapDownUp l₁.evValue) = some u₁ → toInt32 u₁ = -1 →
       parseHex32 (mapDownUp l₂.evValue) = some u₂ → toInt32 u₂ = 0 →
       st.tracking = true →
       stepLine cfg st (some l₁) = stepLine cfg st (some l₂)) ∧
    (mapDownUp "DOWN" = "00000001" ∧ mapDownUp "UP" = "00000000" ∧
     parseHex32 "00000001" = some 1 ∧ parseHex32 "00000000" = some 0 ∧
     toInt32 1 = 1 ∧ toInt32 0 = 0) ∧
    (∀ (cfg : ScaleCfg) (st : ParseState) (l : ParsedLine),
       l.evType ≠ "EV_ABS" →
       stepLine cfg st (some l) =
         { st with firstTimestamp := if st.firstTimestamp.isNeg then l.timestamp
                                     else st.firstTimestamp }) := by
  refine ⟨stepLine_trackingid_down, stepLine_btntouch_down, stepLine_trackingid_up,
          stepLine_btntouch_up, ?_, ⟨rfl, rfl, by decide, by decide, rfl, rfl⟩, ?_⟩
  · intro cfg st l₁ l₂ u₁ u₂ hts hty1 hty2 hcode1 hcode2 hval1 hz1 hval2 hz2 htr
    rw [stepLine_trackingid_up cfg st l₁ u₁ hty1 hcode1 hval1 hz1 htr,
        stepLine_btntouch_up cfg st l₂ u₂ hty2 hcode2 hval2 hz2 htr, hts]
  · intro cfg st l hty
    simp only [stepLine, if_neg hty]

/-- Witness for C4: a tracking-id down, a `BTN_TOUCH DOWN` down, and the two
protocols' up transitions agreeing on the same state. -/
theorem touch_protocol_transitions_witness :
    stepLine ⟨0, 1000, 0, 1000, 500, 500⟩ initParseState
      (some ⟨⟨1, 1⟩, "EV_ABS", "ABS_MT_TRACKING_ID", "0000002a"⟩) =
      ⟨⟨1, 1⟩, -1, -1, ⟨1, 1⟩, -1, -1, true, []⟩ ∧
    stepLine ⟨0, 1000, 0, 1000, 500, 500⟩ initParseState
      (some ⟨⟨1, 1⟩, "EV_ABS", "BTN_TOUCH", "DOWN"⟩) =
      ⟨⟨1, 1⟩, -1, -1, ⟨1, 1⟩, -1, -1, true, []⟩ ∧
    stepLine ⟨0, 1000, 0, 1000, 500, 500⟩ ⟨⟨0, 1⟩, 5, 5, ⟨0, 1⟩, 5, 5, true, []⟩
      (some ⟨⟨1, 1⟩, "EV_ABS", "ABS_MT_TRACKING_ID", "ffffffff"⟩) =
    stepLine ⟨0, 1000, 0, 1000, 500, 500⟩ ⟨⟨0, 1⟩, 5, 5, ⟨0, 1⟩, 5, 5, true, []⟩
      (some ⟨⟨1, 1⟩, "EV_ABS", "BTN_TOUCH", "UP"⟩) := by
  have h := touch_protocol_transitions
  refine ⟨?_, ?_, ?_⟩
  · rw [h.1 ⟨0, 1000, 0, 1000, 500, 500⟩ initParseState
      ⟨⟨1, 1⟩, "EV_ABS", "ABS_MT_TRACKING_ID", "0000002a"⟩ 42 rfl rfl (by decide)
      (by decide) rfl]
    decide
  · rw [h.2.1 ⟨0, 1000, 0, 1000, 500, 500⟩ initParseState
      ⟨⟨1, 1⟩, "EV_ABS", "BTN_TOUCH", "DOWN"⟩ 1 rfl rfl (by decide) (by decide) rfl]
    decide
  · exact h.2.2.2.2.1 ⟨0, 1000, 0, 1000, 500, 500⟩
      ⟨⟨0, 1⟩, 5, 5, ⟨0, 1⟩, 5, 5, true, []⟩
      ⟨⟨1, 1⟩, "EV_ABS", "ABS_MT_TRACKING_ID", "ffffffff"⟩
      ⟨⟨1, 1⟩, "EV_ABS", "BTN_TOUCH", "UP"⟩ 4294967295 0 rfl rfl rfl rfl rfl
      (by decide) (by decide) (by decide) (by decide) rfl

/-- C5: parsing is total — the script always carries the session's device id,
resolution and creation time, degenerate input (no raw lines) yields an empty
event list, a line the event regex rejects leaves the loop state unchanged,
and a stroke whose start or end coordinate is still unknown at touch-up is
skipped without emitting an event. -/
theorem parser_totality :
    (∀ session : TouchRecordingSession,
       (parseRawEvents session).deviceID = session.deviceID ∧
       (parseRawEvents session).resolution = session.resolution ∧
       (parseRawEvents session).createdAt = session.createdAt ∧
       (session.rawEvents = [] → (parseRawEvents session).events = [])) ∧
    (∀ (cfg : ScaleCfg) (st : ParseState), stepLine cfg st none = st) ∧
    (∀ (cfg : ScaleCfg) (st : ParseState) (ts : Frac) (relativeMs : ℤ),
       strokeStartX st = -1 ∨ strokeStartY st = -1 ∨
         st.currentX = -1 ∨ st.currentY = -1 →
       closeStroke cfg st ts relativeMs = { st with tracking := false }) := by
  refine ⟨?_, fun _ _ => rfl, ?_⟩
  · intro session
    refine ⟨?_, ?_, ?_, ?_⟩
    · rw [parseRawEvents]
      split <;> rfl
    · rw [parseRawEvents]
      split <;> rfl
    · rw [parseRawEvents]
      split <;> rfl
    · intro hempty
      rw [parseRawEvents, if_pos (by simp [hempty])]
  · intro cfg st ts relativeMs hunknown
    rw [closeStroke, if_pos hunknown]

/-- Witness for C5: an empty session parses to an empty event list, a
rejected line is skipped, and a stroke closing with unknown coordinates emits
nothing. -/
theorem parser_totality_witness :
    (parseRawEvents ⟨"d", "t", [], "500x500", "i", 0, 0, 0, 0⟩).events = [] ∧
    stepLine ⟨0, 0, 0, 0, 0, 0⟩ initParseState none = initParseState ∧
    closeStroke ⟨0, 0, 0, 0, 0, 0⟩ initParseState ⟨0, 1⟩ 0 =
      { initParseState with tracking := false } := by
  have h := parser_totality
  exact ⟨(h.1 ⟨"d", "t", [], "500x500", "i", 0, 0, 0, 0⟩).2.2.2 rfl,
         h.2.1 ⟨0, 0, 0, 0, 0, 0⟩ initParseState,
         h.2.2 ⟨0, 0, 0, 0, 0, 0⟩ initParseState ⟨0, 1⟩ 0 (Or.inl (by decide))⟩

/-- Counterexample to C6 as stated: on a single-node tree whose only bounds
string is `"[0,0][1,1]"`, a `bounds` selector for `"[9,9][10,10]"` still
returns a node (a freshly constructed one carrying the selector value), even
though no node of the tree has that bounds string — the source's `bounds`
case never searches the tree and never returns nil. -/
theorem bounds_selector_counterexample :
    ((FindElementBySelector
        (some ⟨"", "", "", "", "[0,0][1,1]", []⟩)
        (some ⟨"bounds", "[9,9][10,10]", 0⟩)).map UINode.bounds) =
      some "[9,9][10,10]" ∧
    (FindElementBySelector
        (some ⟨"", "", "", "", "[0,0][1,1]", []⟩)
        (some ⟨"bounds", "[9,9][10,10]", 0⟩)).isSome = true ∧
    ("[0,0][1,1]" : String) ≠ "[9,9][10,10]" := by
  exact ⟨rfl, rfl, by decide⟩

/-- C6 amended: for every UI tree and every selector of type `bounds` with
value `v`, `FindElementBySelector` returns a synthetic node whose bounds
string is literally `v` (all other attributes empty, no children), regardless
of the tree's contents; it never returns no node for a `bounds` selector. -/
theorem bounds_selector_synthetic (root : UINode) (sel : ElementSelector)
    (hty : sel.type = "bounds") :
    FindElementBySelector (some root) (some sel) =
      some ⟨"", "", "", "", sel.value, []⟩ := by
  simp only [FindElementBySelector, hty, String.reduceEq, reduceIte, or_self]

/-- Witness for the amended C6 at a concrete tree and selector. -/
theorem bounds_selector_synthetic_witness :
    FindElementBySelector (some ⟨"a", "", "", "", "[0,0][5,5]", []⟩)
      (some ⟨"bounds", "[1,1][2,2]", 0⟩) =
      some ⟨"", "", "", "", "[1,1][2,2]", []⟩ :=
  bounds_selector_synthetic ⟨"a", "", "", "", "[0,0][5,5]", []⟩
    ⟨"bounds", "[1,1][2,2]", 0⟩ rfl

/-- C7: a duplicate `StartTouchRecording` on a device with a registered
recording command fails fast with the already-recording error, and a
duplicate `PlayTouchScript` on a device with an active playback marker fails
fast with the already-playing error; in both cases the registry state is
returned unchanged. -/
theorem duplicate_start_fails_fast :
    (∀ (st : AppState) (deviceId : String) (o : StartOracle),
       st.touchRecordCmd.contains deviceId = true →
       StartTouchRecording st deviceId o =
         (st, .error "already recording on this device")) ∧
    (∀ (st : AppState) (deviceId : String) (script : TouchScript),
       st.touchPlaybackCancel.contains deviceId = true →
       PlayTouchScript st deviceId script =
         (st, .error "playback already in progress")) := by
  constructor
  · intro st deviceId o h
    rw [StartTouchRecording, if_pos h]
  · intro st deviceId script h
    rw [PlayTouchScript, if_pos h]

/-- Witness for C7 on concrete registry states. -/
theorem duplicate_start_fails_fast_witness :
    StartTouchRecording ⟨["d1"], ["d1"], [], []⟩ "d1"
      ⟨.ok "/dev/input/event1", "1080x1920", true, true, true, 0, 0, 0, 0, "t"⟩ =
      (⟨["d1"], ["d1"], [], []⟩, .error "already recording on this device") ∧
    PlayTouchScript ⟨[], [], [], ["d1"]⟩ "d1" ⟨"d1", "", "", "", []⟩ =
      (⟨[], [], [], ["d1"]⟩, .error "playback already in progress") := by
  have h := duplicate_start_fails_fast
  exact ⟨h.1 ⟨["d1"], ["d1"], [], []⟩ "d1" _ (by decide),
         h.2 ⟨[], [], [], ["d1"]⟩ "d1" _ (by decide)⟩

/-- The playback loop never emits the completion action itself; completion is
emitted only by the deferred block of `playbackRun`. -/
theorem completed_not_mem_playbackLoop (cb cd : ℕ → Bool) (el : ℕ → ℤ) (total : ℕ) :
    ∀ (events : List TouchEvent) (i : ℕ),
      PlayAction.completed ∉ playbackLoop cb cd el total events i := by
  intro events
  induction events with
  | nil => intro i; simp [playbackLoop]
  | cons e rest ih =>
    intro i
    rw [playbackLoop]
    split
    · simp
    · split
      · simp
      · have hih := ih (i + 1)
        split_ifs <;> simp_all [List.mem_append]

/-- C8: a cancellation observed by the playback task — at the pre-event poll
or during the scheduling sleep — ends the loop immediately, so no further
device commands are issued; and on every exit path (cancelled or completed)
the action trace carries exactly one completion notification, as its last
action, with the device's playback marker cleared, as `StopTouchPlayback`
also does. -/
theorem playback_cancellation_completion :
    (∀ (cancelBefore cancelDuring : ℕ → Bool) (elapsed : ℕ → ℤ) (total : ℕ)
       (events : List TouchEvent) (i : ℕ),
       cancelBefore i = true →
       playbackLoop cancelBefore cancelDuring elapsed total events i = []) ∧
    (∀ (cancelBefore cancelDuring : ℕ → Bool) (elapsed : ℕ → ℤ) (total : ℕ)
       (e : TouchEvent) (rest : List TouchEvent) (i : ℕ),
       e.timestamp > elapsed i → cancelDuring i = true →
       playbackLoop cancelBefore cancelDuring elapsed total (e :: rest) i = []) ∧
    (∀ (st : AppState) (deviceId : String) (script : TouchScript)
       (cancelBefore cancelDuring : ℕ → Bool) (elapsed : ℕ → ℤ),
       ((playbackRun st deviceId script cancelBefore cancelDuring elapsed).2).count
         PlayAction.completed = 1 ∧
       ((playbackRun st deviceId script cancelBefore cancelDuring elapsed).2).getLast? =
         some PlayAction.completed ∧
       deviceId ∉
         (playbackRun st deviceId script cancelBefore cancelDuring
           elapsed).1.touchPlaybackCancel) ∧
    (∀ (st : AppState) (deviceId : String),
       deviceId ∉ (StopTouchPlayback st deviceId).touchPlaybackCancel) := by
  refine ⟨?_, ?_, ?_, ?_⟩
  · intro cb cd el total events i h
    cases events with
    | nil => rfl
    | cons e rest => rw [playbackLoop, if_pos h]
  · intro cb cd el total e rest i hgt hcd
    by_cases hcb : cb i = true
    · rw [playbackLoop, if_pos hcb]
    · rw [playbackLoop, if_neg hcb, if_pos ⟨hgt, hcd⟩]
  · intro st deviceId script cb cd el
    refine ⟨?_, ?_, ?_⟩
    · rw [playbackRun]
      dsimp only
      rw [List.count_append,
          List.count_eq_zero.mpr
            (completed_not_mem_playbackLoop cb cd el _ script.events 0)]
      rfl
    · exact List.getLast?_concat _
    · rw [playbackRun]
      simp [List.mem_filter]
  · intro st deviceId
    simp [StopTouchPlayback, List.mem_filter]

/-- Witness for C8: cancellation observed before event 0 or during its
scheduling sleep yields an empty command trace; a playback run over a
one-event script emits exactly one completion; `StopTouchPlayback` clears the
marker. -/
theorem playback_cancellation_completion_witness :
    playbackLoop (fun _ => true) (fun _ => false) (fun _ => 0) 1
      [⟨0, "tap", 1, 1, 0, 0, 0⟩] 0 = [] ∧
    playbackLoop (fun _ => false) (fun _ => true) (fun _ => 0) 1
      [⟨100, "tap", 1, 1, 0, 0, 0⟩] 0 = [] ∧
    ((playbackRun ⟨[], [], [], ["d"]⟩ "d" ⟨"d", "", "", "", [⟨0, "tap", 1, 1, 0, 0, 0⟩]⟩
        (fun _ => false) (fun _ => false) (fun _ => 0)).2).count PlayAction.completed = 1 ∧
    ((playbackRun ⟨[], [], [], ["d"]⟩ "d" ⟨"d", "", "", "", [⟨0, "tap", 1, 1, 0, 0, 0⟩]⟩
        (fun _ => false) (fun _ => false) (fun _ => 0)).2).getLast? =
      some PlayAction.completed ∧
    "d" ∉ (StopTouchPlayback ⟨[], [], [], ["d"]⟩ "d").touchPlaybackCancel := by
  have h := playback_cancellation_completion
  have h3 := h.2.2.1 ⟨[], [], [], ["d"]⟩ "d" ⟨"d", "", "", "", [⟨0, "tap", 1, 1, 0, 0, 0⟩]⟩
    (fun _ => false) (fun _ => false) (fun _ => 0)
  exact ⟨h.1 _ _ _ _ _ 0 rfl, h.2.1 _ _ _ _ _ _ 0 (by decide) rfl,
         h3.1, h3.2.1, h.2.2.2 ⟨[], [], [], ["d"]⟩ "d"⟩

/-- Decoding inverts encoding on a single touch event. -/
theorem decode_encode_event (e : TouchEvent) :
    decodeTouchEvent (encodeTouchEvent e) = some e := rfl

/-- Decoding inverts encoding element-wise on an event list. -/
theorem decodeEventList_map (l : List TouchEvent) :
    decodeEventList (l.map encodeTouchEvent) = some l := by
  induction l with
  | nil => rfl
  | cons e t ih => simp [decodeEventList, ih, decode_encode_event]

/-- C9: serializing a `TouchScript` with the store's JSON encoding and
deserializing it yields the identical script — same event count, same order,
and every numeric field of every event (timestamp, x, y, x2, y2, duration)
preserved exactly. -/
theorem script_store_roundtrip (s : TouchScript) :
    decodeTouchScript (encodeTouchScript s) = some s := by
  have hev := decodeEventList_map s.events
  simp [decodeTouchScript, encodeTouchScript, getStrD, getEventsD, List.lookup, hev]

/-- The stroke event's timestamp field is the relative timestamp it is built
with, in both classification branches. -/
theorem strokeEvent_timestamp (cfg : ScaleCfg) (st : ParseState) (ts : Frac)
    (relativeMs : ℤ) :
    (strokeEvent cfg st ts relativeMs).timestamp = relativeMs := by
  rw [strokeEvent]
  split <;> rfl

/-- C10: the event emitted for a stroke is stamped with the relative time of
the touch-up line that closed the stroke (the down line's time only enters
the duration), and playback schedules each event by sleeping until exactly
that timestamp. -/
theorem event_timestamp_release_time :
    (∀ (cfg : ScaleCfg) (st : ParseState) (l : ParsedLine) (u : ℕ),
       l.evType = "EV_ABS" → l.evCode = "ABS_MT_TRACKING_ID" →
       parseHex32 (mapDownUp l.evValue) = some u → toInt32 u = -1 → st.tracking = true →
       strokeStartX st ≠ -1 → strokeStartY st ≠ -1 →
       st.currentX ≠ -1 → st.currentY ≠ -1 →
       ∃ ev : TouchEvent,
         (stepLine cfg st (some l)).events = st.events ++ [ev] ∧
         ev.timestamp =
           Frac.trunc (Frac.mul
             (Frac.sub l.timestamp
               (if st.firstTimestamp.isNeg then l.timestamp else st.firstTimestamp))
             (Frac.ofInt 1000))) ∧
    (∀ (cancelBefore cancelDuring : ℕ → Bool) (elapsed : ℕ → ℤ) (total : ℕ)
       (e : TouchEvent) (rest : List TouchEvent) (i : ℕ),
       cancelBefore i = false → cancelDuring i = false → elapsed i < e.timestamp →
       ∃ tail, playbackLoop cancelBefore cancelDuring elapsed total (e :: rest) i =
         PlayAction.sleep (e.timestamp - elapsed i) :: tail) := by
  constructor
  · intro cfg st l u hty hcode hval hz htr hsx hsy hcx hcy
    rw [stepLine_trackingid_up cfg st l u hty hcode hval hz htr]
    rw [closeStroke, if_neg]
    · exact ⟨_, rfl, strokeEvent_timestamp _ _ _ _⟩
    · push_neg
      exact ⟨hsx, hsy, hcx, hcy⟩
  · intro cb cd el total e rest i hcb hcd hel
    rw [playbackLoop, if_neg (by simp [hcb]), if_neg (by simp [hcd]), if_pos hel]
    exact ⟨_, rfl⟩

/-- Witness for C10: a stroke opened at 0 s and released at 2 s is stamped
2000 ms, and playback of an event stamped 100 ms with elapsed time 0 first
sleeps 100 ms. -/
theorem event_timestamp_release_time_witness :
    ((stepLine ⟨0, 1000, 0, 1000, 500, 500⟩ ⟨⟨0, 1⟩, 5, 5, ⟨0, 1⟩, 5, 5, true, []⟩
        (some ⟨⟨2, 1⟩, "EV_ABS", "ABS_MT_TRACKING_ID", "ffffffff"⟩)).events).map
      TouchEvent.timestamp = [2000] ∧
    (playbackLoop (fun _ => false) (fun _ => false) (fun _ => 0) 1
        [⟨100, "tap", 1, 2, 0, 0, 0⟩] 0).head? = some (PlayAction.sleep 100) := by
  have h := event_timestamp_release_time
  constructor
  · obtain ⟨ev, hev, hts⟩ := h.1 ⟨0, 1000, 0, 1000, 500, 500⟩
      ⟨⟨0, 1⟩, 5, 5, ⟨0, 1⟩, 5, 5, true, []⟩
      ⟨⟨2, 1⟩, "EV_ABS", "ABS_MT_TRACKING_ID", "ffffffff"⟩ 4294967295
      rfl rfl (by decide) (by decide) rfl (by decide) (by decide) (by decide) (by decide)
    rw [hev]
    simp only [List.nil_append, List.map_cons, List.map_nil]
    rw [hts]
    decide
  · obtain ⟨tail, htail⟩ := h.2 (fun _ => false) (fun _ => false) (fun _ => 0) 1
      ⟨100, "tap", 1, 2, 0, 0, 0⟩ [] 0 rfl rfl (by decide)
    rw [htail]
    rfl
